import Mathlib

/-
  Verification of the marker-tracking pipeline in tracker.py.

  The pipeline reads video frames, segments two calibrated colors (pink and
  green), extracts blob centroids per color, and, when both colors have
  exactly two centroids, derives per-color direction vectors with orientation
  normalization and frame-to-frame continuity correction, computes the angle
  between them, annotates the frame and appends a CSV row.

  The shallow embedding models each frame by the contours that the external
  vision library (cv2.findContours on the color mask) yields, each contour
  abstracted by its image moments as exact rationals. Pixel-level work
  (color conversion, inRange, findContours, the actual drawing and encoding)
  is the external boundary; everything from find_centroids onward is
  translated from tracker.py.
-/

namespace Tracker

/-- A connected contour of a binary mask, abstracted by its image moments
(the values cv2.moments returns for it): zeroth moment m00 and first moments
m10, m01, as integers. The Green-formula moments of a lattice polygon are
rationals with small fixed denominators; they are modeled at integer
resolution here, which is exact on every input exercised below and does not
affect the comparisons at integer thresholds that the verified properties
are about. -/
structure Contour where
  m00 : ℤ
  m10 : ℤ
  m01 : ℤ
  deriving DecidableEq

/-- Convenience constructor for concrete contours. -/
def cnt (a b c : ℤ) : Contour := { m00 := a, m10 := b, m01 := c }

/-- cv2.contourArea: absolute polygon area by the Green formula, which for a
contour returned by cv2.findContours coincides with the absolute value of the
zeroth moment m00 (both are computed from the same boundary polygon). -/
def contourArea (c : Contour) : ℤ := (c.m00.natAbs : ℤ)

/-- find_centroids, tracker.py lines 16 to 28: drop every contour whose
cv2.contourArea is below 50, guard against a zero m00, and collect the
integer centroids (int(m10/m00), int(m01/m00)) in contour order. Python
int() applied to the float quotient truncates toward zero, which on integer
moments is Int.tdiv. -/
def find_centroids : List Contour → List (ℤ × ℤ)
  | [] => []
  | c :: rest =>
    if contourArea c < 50 then find_centroids rest
    else if c.m00 = 0 then find_centroids rest
    else (Int.tdiv c.m10 c.m00, Int.tdiv c.m01 c.m00) :: find_centroids rest

/-- force_downward, tracker.py lines 39 to 41: keep the vector when its
y-component is positive, otherwise negate the whole vector. -/
def force_downward (v : ℤ × ℤ) : ℤ × ℤ := if v.2 > 0 then v else (-v.1, -v.2)

/-- force_leftward, tracker.py lines 43 to 45: keep the vector when its
x-component is negative, otherwise negate the whole vector. -/
def force_leftward (v : ℤ × ℤ) : ℤ × ℤ := if v.1 < 0 then v else (-v.1, -v.2)

/-- np.dot restricted to 2-vectors of integers. -/
def dot (v w : ℤ × ℤ) : ℤ := v.1 * w.1 + v.2 * w.2

/-- The two orientation steps as composed at tracker.py lines 119 to 122:
force_downward followed by force_leftward. -/
def canon (v : ℤ × ℤ) : ℤ × ℤ := force_leftward (force_downward v)

/-- Continuity correction, tracker.py lines 124 to 127: when a previous
accepted vector exists and its dot product with the current vector is
negative, negate the current vector. -/
def continuity (prev : Option (ℤ × ℤ)) (v : ℤ × ℤ) : ℤ × ℤ :=
  match prev with
  | none => v
  | some pv => if dot v pv < 0 then (-v.1, -v.2) else v

/-- The difference p2 - p1 of two centroids, tracker.py lines 116 and 117. -/
def pairVec (p1 p2 : ℤ × ℤ) : ℤ × ℤ := (p2.1 - p1.1, p2.2 - p1.2)

/-- sorted(pts, key=lambda p: p[1]) on a two-element list: stable ascending
order by the y-coordinate. -/
def orderByY (a b : ℤ × ℤ) : (ℤ × ℤ) × (ℤ × ℤ) :=
  if a.2 ≤ b.2 then (a, b) else (b, a)

/-- Result of angle_between, tracker.py lines 30 to 37. For integer vectors
the Euclidean norm is zero exactly for (0, 0); in that case the source
returns the floating-point nan. The arccos degree value is floating point
and is kept symbolic as the pair of input vectors, since no verified
property depends on its numeric value, only on which frames produce one. -/
inductive AngleOut where
  | nan : AngleOut
  | deg : (ℤ × ℤ) → (ℤ × ℤ) → AngleOut
  deriving DecidableEq

/-- angle_between, tracker.py lines 30 to 37: nan when either input vector
is the zero vector, otherwise the arccos-based angle of the pair. -/
def angle_between (v1 v2 : ℤ × ℤ) : AngleOut :=
  if v1 = (0, 0) ∨ v2 = (0, 0) then AngleOut.nan else AngleOut.deg v1 v2

/-- One drawing operation performed on a frame: a filled circle of a given
radius and BGR color, a line of a given color and thickness, or the angle
text overlay, where the argument none renders the literal N/A and some a
renders the formatted value of a (nan formats as nan, not as N/A). -/
inductive DrawOp where
  | circle : (ℤ × ℤ) → ℕ → (ℕ × ℕ × ℕ) → DrawOp
  | line : (ℤ × ℤ) → (ℤ × ℤ) → (ℕ × ℕ × ℕ) → ℕ → DrawOp
  | text : Option AngleOut → DrawOp
  deriving DecidableEq

/-- One input frame, abstracted by the contours the external segmentation
(cvtColor, inRange, findContours) yields for the pink and the green mask. -/
structure Frame where
  pinkContours : List Contour
  greenContours : List Contour
  deriving DecidableEq

/-- The mutable state of the frame loop in process_video, tracker.py lines
86 to 145: the previous accepted vector per color, the frame counter, the
count of frames with an angle, the CSV data rows written so far (the header
row written at line 69 is not a data row and is not modeled here), and the
annotated frames written to the raw output stream, each as its list of
drawing operations. -/
structure LoopState where
  prev_pink : Option (ℤ × ℤ)
  prev_green : Option (ℤ × ℤ)
  frame_idx : ℕ
  frames_with_angle : ℕ
  rows : List (ℕ × AngleOut)
  video : List (List DrawOp)
  deriving DecidableEq

/-- The state at the start of process_video, tracker.py lines 86 to 89. -/
def initState : LoopState :=
  { prev_pink := none, prev_green := none, frame_idx := 0,
    frames_with_angle := 0, rows := [], video := [] }

/-- One iteration of the frame loop, tracker.py lines 91 to 145. csvOn
records whether a CSV writer was opened (output_csv_path was not None). The
two centroid circles per point are drawn first; when both colors have
exactly two centroids the vectors, the angle, the connecting lines and a
CSV row are produced; the angle text is drawn last. -/
def processFrame (csvOn : Bool) (s : LoopState) (f : Frame) : LoopState :=
  let pink_pts := find_centroids f.pinkContours
  let green_pts := find_centroids f.greenContours
  let circleOps := pink_pts.map (fun p => DrawOp.circle p 10 (0, 0, 255)) ++
    green_pts.map (fun p => DrawOp.circle p 10 (0, 255, 0))
  match pink_pts, green_pts with
  | [pa, pb], [ga, gb] =>
    let pp := orderByY pa pb
    let gg := orderByY ga gb
    let pink_vec := continuity s.prev_pink (force_leftward (force_downward (pairVec pp.1 pp.2)))
    let green_vec := continuity s.prev_green (force_leftward (force_downward (pairVec gg.1 gg.2)))
    let ang := angle_between pink_vec green_vec
    { prev_pink := some pink_vec
      prev_green := some green_vec
      frame_idx := s.frame_idx + 1
      frames_with_angle := s.frames_with_angle + 1
      rows := if csvOn then s.rows ++ [(s.frame_idx + 1, ang)] else s.rows
      video := s.video ++ [circleOps ++
        [DrawOp.line pp.1 pp.2 (0, 255, 255) 3,
         DrawOp.line gg.1 gg.2 (0, 255, 255) 3,
         DrawOp.text (some ang)]] }
  | _, _ =>
    { s with
      frame_idx := s.frame_idx + 1
      video := s.video ++ [circleOps ++ [DrawOp.text none]] }

/-- The summary dict returned by process_video, tracker.py lines 170 to 175.
The output_csv field is modeled by the content of the log it points to (the
data rows, header excluded), and is none when no CSV path was given. -/
structure PipelineResult where
  frames : ℕ
  frames_with_angle : ℕ
  video : List (List DrawOp)
  output_csv : Option (List (ℕ × AngleOut))
  deriving DecidableEq

/-- process_video, tracker.py lines 47 to 175, restricted to the frame loop
and the returned summary. Opening the streams, the H.264 transcode and the
raw-file cleanup are the external I/O boundary. -/
def process_video (framesIn : List Frame) (csvOn : Bool) : PipelineResult :=
  let final := framesIn.foldl (processFrame csvOn) initState
  { frames := final.frame_idx
    frames_with_angle := final.frames_with_angle
    video := final.video
    output_csv := if csvOn then some final.rows else none }

/-- Data rows of the angle log (header excluded), empty when no log was
requested. -/
def logRows (r : PipelineResult) : List (ℕ × AngleOut) := r.output_csv.getD []

/-- The normalized direction vector that tracker.py lines 113 to 127 compute
for one color from its centroid list and its previous accepted vector,
defined exactly when the list has two points: order the pair by ascending y,
take p2 - p1, apply the two orientation steps, apply continuity correction. -/
def frameVec (prev : Option (ℤ × ℤ)) (pts : List (ℤ × ℤ)) : Option (ℤ × ℤ) :=
  match pts with
  | [a, b] =>
    let pr := orderByY a b
    some (continuity prev (canon (pairVec pr.1 pr.2)))
  | _ => none

/-- The state produced by one loop iteration when both colors have exactly
two centroids, expressed directly in terms of the listed points. -/
def stepPair (csvOn : Bool) (s : LoopState) (pa pb ga gb : ℤ × ℤ) : LoopState :=
  let pv := continuity s.prev_pink (canon (pairVec (orderByY pa pb).1 (orderByY pa pb).2))
  let gv := continuity s.prev_green (canon (pairVec (orderByY ga gb).1 (orderByY ga gb).2))
  let ang := angle_between pv gv
  { prev_pink := some pv
    prev_green := some gv
    frame_idx := s.frame_idx + 1
    frames_with_angle := s.frames_with_angle + 1
    rows := if csvOn then s.rows ++ [(s.frame_idx + 1, ang)] else s.rows
    video := s.video ++ [[DrawOp.circle pa 10 (0, 0, 255), DrawOp.circle pb 10 (0, 0, 255),
      DrawOp.circle ga 10 (0, 255, 0), DrawOp.circle gb 10 (0, 255, 0),
      DrawOp.line (orderByY pa pb).1 (orderByY pa pb).2 (0, 255, 255) 3,
      DrawOp.line (orderByY ga gb).1 (orderByY ga gb).2 (0, 255, 255) 3,
      DrawOp.text (some ang)]] }

/-- The state produced by one loop iteration when the two-centroids
condition fails for at least one color: only the counter, the centroid
circles and the N/A text change. -/
def stepSkip (s : LoopState) (pinkPts greenPts : List (ℤ × ℤ)) : LoopState :=
  { s with
    frame_idx := s.frame_idx + 1
    video := s.video ++ [(pinkPts.map (fun p => DrawOp.circle p 10 (0, 0, 255)) ++
      greenPts.map (fun p => DrawOp.circle p 10 (0, 255, 0))) ++ [DrawOp.text none]] }

/-- Concrete frame with two pink centroids (0,0), (0,5) and one green
centroid (7,7). -/
def fA : Frame :=
  { pinkContours := [cnt 100 0 0, cnt 100 0 500]
    greenContours := [cnt 100 700 700] }

/-- Concrete frame whose two pink centroids coincide at (5,5) and whose
green centroids are (0,0) and (0,1). -/
def fB : Frame :=
  { pinkContours := [cnt 100 550 550, cnt 100 550 550]
    greenContours := [cnt 100 0 0, cnt 100 0 100] }

/-- Concrete frame with one pink centroid (10,10) and two green centroids
(0,0) and (0,5). -/
def fC : Frame :=
  { pinkContours := [cnt 100 1000 1000]
    greenContours := [cnt 100 0 0, cnt 100 0 500] }

/-- Concrete frame with pink centroids (3,0), (0,4) and green centroids
(0,0), (0,1). -/
def fD : Frame :=
  { pinkContours := [cnt 100 300 0, cnt 100 0 400]
    greenContours := [cnt 100 0 0, cnt 100 0 100] }

/-- Concrete frame with pink centroids (0,0), (0,1) and green centroids
(0,0), (0,1). -/
def fE : Frame :=
  { pinkContours := [cnt 100 0 0, cnt 100 0 100]
    greenContours := [cnt 100 0 0, cnt 100 0 100] }

/-- A contour whose area is exactly the threshold 50. -/
def c50 : Contour := cnt 50 100 100

/-- A contour whose area is one below the threshold. -/
def c49 : Contour := cnt 49 100 100

lemma processFrame_pair (csvOn : Bool) (s : LoopState) (f : Frame) (pa pb ga gb : ℤ × ℤ)
    (hp : find_centroids f.pinkContours = [pa, pb])
    (hg : find_centroids f.greenContours = [ga, gb]) :
    processFrame csvOn s f = stepPair csvOn s pa pb ga gb := by
  simp only [processFrame, hp, hg, stepPair, canon, List.map, List.cons_append,
    List.nil_append]

lemma processFrame_skip (csvOn : Bool) (s : LoopState) (f : Frame)
    (h : ¬ ((find_centroids f.pinkContours).length = 2 ∧
      (find_centroids f.greenContours).length = 2)) :
    processFrame csvOn s f =
      stepSkip s (find_centroids f.pinkContours) (find_centroids f.greenContours) := by
  simp only [processFrame]
  split
  next pa pb ga gb hp hg =>
    exact absurd ⟨by rw [hp]; rfl, by rw [hg]; rfl⟩ h
  next =>
    rfl

lemma dot_self_nonneg (v : ℤ × ℤ) : 0 ≤ dot v v := by
  have h1 := mul_self_nonneg v.1
  have h2 := mul_self_nonneg v.2
  simp only [dot]
  linarith

lemma eq_zero_of_dot_self_nonpos (v : ℤ × ℤ) (h : dot v v ≤ 0) : v = (0, 0) := by
  obtain ⟨x, y⟩ := v
  have h1 := mul_self_nonneg x
  have h2 := mul_self_nonneg y
  simp only [dot] at h
  have hx : x * x = 0 := le_antisymm (by linarith) h1
  have hy : y * y = 0 := le_antisymm (by linarith) h2
  simp only [Prod.mk.injEq]
  exact ⟨mul_self_eq_zero.mp hx, mul_self_eq_zero.mp hy⟩

lemma continuity_repeat (prev : Option (ℤ × ℤ)) (v : ℤ × ℤ) :
    continuity (some (continuity prev v)) v = continuity prev v := by
  have hnn := dot_self_nonneg v
  cases prev with
  | none =>
    simp only [continuity]
    rw [if_neg (by omega)]
  | some pv =>
    simp only [continuity]
    by_cases h1 : dot v pv < 0
    · simp only [if_pos h1]
      by_cases h2 : dot v (-v.1, -v.2) < 0
      · simp only [if_pos h2]
      · simp only [if_neg h2]
        have hd : dot v (-v.1, -v.2) = -(dot v v) := by simp only [dot]; ring
        rw [hd] at h2
        have hv0 : v = (0, 0) := eq_zero_of_dot_self_nonpos v (by omega)
        rw [hv0]
        norm_num
    · simp only [if_neg h1]
      rw [if_neg (by omega)]

lemma prev_pink_after (csvOn : Bool) (s : LoopState) (f : Frame) :
    (processFrame csvOn s f).prev_pink =
      if (find_centroids f.pinkContours).length = 2 ∧
          (find_centroids f.greenContours).length = 2
      then frameVec s.prev_pink (find_centroids f.pinkContours)
      else s.prev_pink := by
  by_cases h : (find_centroids f.pinkContours).length = 2 ∧
      (find_centroids f.greenContours).length = 2
  · obtain ⟨a, b, hab⟩ := List.length_eq_two.mp h.1
    obtain ⟨c, d, hcd⟩ := List.length_eq_two.mp h.2
    rw [processFrame_pair csvOn s f a b c d hab hcd, if_pos h, hab]
    simp [stepPair, frameVec]
  · rw [processFrame_skip csvOn s f h, if_neg h]
    rfl

lemma prev_green_after (csvOn : Bool) (s : LoopState) (f : Frame) :
    (processFrame csvOn s f).prev_green =
      if (find_centroids f.pinkContours).length = 2 ∧
          (find_centroids f.greenContours).length = 2
      then frameVec s.prev_green (find_centroids f.greenContours)
      else s.prev_green := by
  by_cases h : (find_centroids f.pinkContours).length = 2 ∧
      (find_centroids f.greenContours).length = 2
  · obtain ⟨a, b, hab⟩ := List.length_eq_two.mp h.1
    obtain ⟨c, d, hcd⟩ := List.length_eq_two.mp h.2
    rw [processFrame_pair csvOn s f a b c d hab hcd, if_pos h, hcd]
    simp [stepPair, frameVec]
  · rw [processFrame_skip csvOn s f h, if_neg h]
    rfl

lemma processFrame_frame_idx (csvOn : Bool) (s : LoopState) (f : Frame) :
    (processFrame csvOn s f).frame_idx = s.frame_idx + 1 := by
  by_cases h : (find_centroids f.pinkContours).length = 2 ∧
      (find_centroids f.greenContours).length = 2
  · obtain ⟨a, b, hab⟩ := List.length_eq_two.mp h.1
    obtain ⟨c, d, hcd⟩ := List.length_eq_two.mp h.2
    rw [processFrame_pair csvOn s f a b c d hab hcd]
    rfl
  · rw [processFrame_skip csvOn s f h]
    rfl

lemma processFrame_rows_count (csvOn : Bool) (s : LoopState) (f : Frame) :
    ((processFrame csvOn s f).rows = s.rows ∧
      (processFrame csvOn s f).frames_with_angle = s.frames_with_angle) ∨
    (∃ a, (processFrame csvOn s f).rows =
        (if csvOn then s.rows ++ [(s.frame_idx + 1, a)] else s.rows) ∧
      (processFrame csvOn s f).frames_with_angle = s.frames_with_angle + 1) := by
  by_cases h : (find_centroids f.pinkContours).length = 2 ∧
      (find_centroids f.greenContours).length = 2
  · obtain ⟨a, b, hab⟩ := List.length_eq_two.mp h.1
    obtain ⟨c, d, hcd⟩ := List.length_eq_two.mp h.2
    rw [processFrame_pair csvOn s f a b c d hab hcd]
    exact Or.inr ⟨_, rfl, rfl⟩
  · rw [processFrame_skip csvOn s f h]
    exact Or.inl ⟨rfl, rfl⟩

lemma canon_core (a b : ℤ) (hne : ¬ (a = 0 ∧ b = 0)) :
    canon (a, b) ≠ (0, 0) ∧ (canon (a, b)).1 ≤ 0 ∧
    ((canon (a, b)).1 = 0 → (canon (a, b)).2 ≤ 0) := by
  simp only [canon, force_downward, force_leftward, ne_eq]
  split_ifs with h1 h2 h2 <;> simp only [Prod.mk.injEq, not_and] at * <;> omega

/-- C1 (counterexample): in the concrete frame fA the pink marker pair is
present (exactly two pink centroids, at (0,0) and (0,5)) while the green
centroid count is one, yet the pink TrackingState entry is NOT updated with
the normalized pink vector: it stays none, although the normalized vector
for the pink pair is (0, -5). -/
theorem C1_counterexample :
    (find_centroids fA.pinkContours).length = 2 ∧
    (find_centroids fA.greenContours).length = 1 ∧
    (processFrame true initState fA).prev_pink = none ∧
    frameVec initState.prev_pink (find_centroids fA.pinkContours) = some (0, -5) := by
  decide

/-- C1 (amended): TrackingState entries are updated exactly in the frames
where both colors have exactly two centroids; in such a frame each color
entry becomes that color normalized vector; in every other frame — in
particular a frame with exactly two pink centroids but a green count other
than two — both entries are left unchanged. -/
theorem C1_amended (csvOn : Bool) (s : LoopState) (f : Frame) :
    ((processFrame csvOn s f).prev_pink =
      if (find_centroids f.pinkContours).length = 2 ∧
          (find_centroids f.greenContours).length = 2
      then frameVec s.prev_pink (find_centroids f.pinkContours)
      else s.prev_pink) ∧
    ((processFrame csvOn s f).prev_green =
      if (find_centroids f.pinkContours).length = 2 ∧
          (find_centroids f.greenContours).length = 2
      then frameVec s.prev_green (find_centroids f.greenContours)
      else s.prev_green) :=
  ⟨prev_pink_after csvOn s f, prev_green_after csvOn s f⟩

/-- C2 (counterexample): for the marker pair p1 = (0,0), p2 = (1,1) with
p1 ≠ p2, the vector after force_downward followed by force_leftward is
(-1,-1), whose y-component is negative, so the claimed canonical orientation
(y ≥ 0, and x ≤ 0 when y = 0) fails. -/
theorem C2_counterexample :
    (((0 : ℤ), (0 : ℤ)) ≠ ((1 : ℤ), (1 : ℤ))) ∧
    canon (pairVec (0, 0) (1, 1)) = (-1, -1) ∧
    ¬ (0 ≤ (canon (pairVec (0, 0) (1, 1))).2 ∧
       ((canon (pairVec (0, 0) (1, 1))).2 = 0 →
         (canon (pairVec (0, 0) (1, 1))).1 ≤ 0)) := by
  decide

/-- C2 (amended): for every marker pair with p1 ≠ p2, the vector produced by
applying force_downward followed by force_leftward to p2 - p1 is non-zero
and satisfies x ≤ 0, and y ≤ 0 when x = 0: force_leftward runs last and
negates the whole vector, so the canonical orientation pins the sign of the
x-component, not of the y-component. -/
theorem C2_amended (p1 p2 : ℤ × ℤ) (h : p1 ≠ p2) :
    canon (pairVec p1 p2) ≠ (0, 0) ∧
    (canon (pairVec p1 p2)).1 ≤ 0 ∧
    ((canon (pairVec p1 p2)).1 = 0 → (canon (pairVec p1 p2)).2 ≤ 0) := by
  have hne : ¬ (p2.1 - p1.1 = 0 ∧ p2.2 - p1.2 = 0) := by
    intro hc
    apply h
    obtain ⟨x1, y1⟩ := p1
    obtain ⟨x2, y2⟩ := p2
    simp only [Prod.mk.injEq] at hc ⊢
    omega
  simpa [pairVec] using canon_core (p2.1 - p1.1) (p2.2 - p1.2) hne

/-- C2 witness: the amended statement at the concrete pair (0,0), (2,3). -/
theorem C2_witness :
    ((((0 : ℤ), (0 : ℤ)) : ℤ × ℤ) ≠ ((2 : ℤ), (3 : ℤ))) ∧
    (canon (pairVec (0, 0) (2, 3)) ≠ (0, 0) ∧
     (canon (pairVec (0, 0) (2, 3))).1 ≤ 0 ∧
     ((canon (pairVec (0, 0) (2, 3))).1 = 0 →
       (canon (pairVec (0, 0) (2, 3))).2 ≤ 0)) :=
  ⟨by decide, C2_amended (0, 0) (2, 3) (by decide)⟩

/-- C3 (code evaluated at the failing input): in frame fB the two pink
centroids coincide at (5,5), so the derived pink vector is the zero vector;
the pipeline nevertheless records a measurement for the frame: a CSV data
row carrying the nan angle is written, frames_with_angle is incremented, the
overlay text shows the formatted nan value rather than N/A, and the zero
vector is stored as the pink TrackingState entry. This contradicts the
stated invariant that a degenerate pair yields no measurement. -/
theorem C3_nan_row_written :
    find_centroids fB.pinkContours = [(5, 5), (5, 5)] ∧
    (processFrame true initState fB).rows = [(1, AngleOut.nan)] ∧
    (processFrame true initState fB).frames_with_angle = 1 ∧
    (processFrame true initState fB).prev_pink = some (0, 0) ∧
    (processFrame true initState fB).video =
      [[DrawOp.circle (5, 5) 10 (0, 0, 255), DrawOp.circle (5, 5) 10 (0, 0, 255),
        DrawOp.circle (0, 0) 10 (0, 255, 0), DrawOp.circle (0, 1) 10 (0, 255, 0),
        DrawOp.line (5, 5) (5, 5) (0, 255, 255) 3,
        DrawOp.line (0, 0) (0, 1) (0, 255, 255) 3,
        DrawOp.text (some AngleOut.nan)]] := by
  decide

/-- C5: in any frame where either color has a centroid count other than two,
no direction vector is produced for either color (both TrackingState entries
are left unchanged), no log row is appended, and the frame is not counted as
having a valid angle. -/
theorem C5_ambiguous_count_no_measurement (csvOn : Bool) (s : LoopState) (f : Frame)
    (h : (find_centroids f.pinkContours).length ≠ 2 ∨
      (find_centroids f.greenContours).length ≠ 2) :
    (processFrame csvOn s f).rows = s.rows ∧
    (processFrame csvOn s f).frames_with_angle = s.frames_with_angle ∧
    (processFrame csvOn s f).prev_pink = s.prev_pink ∧
    (processFrame csvOn s f).prev_green = s.prev_green := by
  have hn : ¬ ((find_centroids f.pinkContours).length = 2 ∧
      (find_centroids f.greenContours).length = 2) := by tauto
  rw [processFrame_skip csvOn s f hn]
  exact ⟨rfl, rfl, rfl, rfl⟩

/-- C5 witness: the statement at the concrete frame fC, which has one pink
centroid and two green centroids. -/
theorem C5_witness :
    ((find_centroids fC.pinkContours).length ≠ 2 ∨
      (find_centroids fC.greenContours).length ≠ 2) ∧
    ((processFrame true initState fC).rows = initState.rows ∧
     (processFrame true initState fC).frames_with_angle = initState.frames_with_angle ∧
     (processFrame true initState fC).prev_pink = initState.prev_pink ∧
     (processFrame true initState fC).prev_green = initState.prev_green) :=
  ⟨by decide, C5_ambiguous_count_no_measurement true initState fC (by decide)⟩

/-- C6 (counterexample): in the concrete frame fC there is exactly one pink
centroid and exactly two green centroids; no log row is written (that part
of the claim holds), and the green centroids are drawn as circles, but NO
connecting line is drawn for the green pair: the annotated frame consists of
three circles and the N/A text only, with no line operation, contradicting
the claim that the green pair connecting line is still drawn. -/
theorem C6_counterexample :
    find_centroids fC.pinkContours = [(10, 10)] ∧
    find_centroids fC.greenContours = [(0, 0), (0, 5)] ∧
    (processFrame true initState fC).rows = [] ∧
    (processFrame true initState fC).video =
      [[DrawOp.circle (10, 10) 10 (0, 0, 255), DrawOp.circle (0, 0) 10 (0, 255, 0),
        DrawOp.circle (0, 5) 10 (0, 255, 0), DrawOp.text none]] := by
  decide

/-- C6 (amended): for every frame with exactly one pink centroid and exactly
two green centroids, no angle row is written to the log, and the green
centroids are still drawn as filled circles, but the connecting line of the
green pair is NOT drawn (connecting lines are only drawn when both colors
have exactly two centroids): the appended annotated frame consists of the
three centroid circles followed by the N/A text, with no line operation. -/
theorem C6_amended (csvOn : Bool) (s : LoopState) (f : Frame) (a c d : ℤ × ℤ)
    (hp : find_centroids f.pinkContours = [a])
    (hg : find_centroids f.greenContours = [c, d]) :
    (processFrame csvOn s f).rows = s.rows ∧
    (processFrame csvOn s f).video = s.video ++
      [[DrawOp.circle a 10 (0, 0, 255), DrawOp.circle c 10 (0, 255, 0),
        DrawOp.circle d 10 (0, 255, 0), DrawOp.text none]] := by
  have hn : ¬ ((find_centroids f.pinkContours).length = 2 ∧
      (find_centroids f.greenContours).length = 2) := by
    rw [hp]
    simp
  rw [processFrame_skip csvOn s f hn]
  constructor
  · rfl
  · simp [stepSkip, hp, hg]

/-- C6 witness: the amended statement at the concrete frame fC. -/
theorem C6_witness :
    (find_centroids fC.pinkContours = [((10 : ℤ), (10 : ℤ))] ∧
     find_centroids fC.greenContours = [(0, 0), (0, 5)]) ∧
    ((processFrame true initState fC).rows = initState.rows ∧
     (processFrame true initState fC).video = initState.video ++
       [[DrawOp.circle (10, 10) 10 (0, 0, 255), DrawOp.circle (0, 0) 10 (0, 255, 0),
         DrawOp.circle (0, 5) 10 (0, 255, 0), DrawOp.text none]]) :=
  ⟨⟨by decide, by decide⟩,
    C6_amended true initState fC (10, 10) (0, 0) (0, 5) (by decide) (by decide)⟩

/-- C7 (counterexample): continuity correction does yield the same vector on
two consecutive identical frames, but not for the claimed reason. Starting
from the empty state, frame fD stores the pink vector (-3, 4); the next
frame fE has the vertical pink pair (0,0), (0,1), whose canonical vector is
(0, -1); its dot product with (-3, 4) is negative, so the stored entry flips
to (0, 1). Feeding fE again, the dot product of the current canonical
vector (0, -1) with the stored previous vector (0, 1) is NEGATIVE, and a
flip DOES occur on the second identical frame: the claimed mechanism (dot
product ≥ 0, hence no flip) fails, even though the resulting vector is the
same (0, 1) both times. -/
theorem C7_counterexample :
    (processFrame true (processFrame true initState fD) fE).prev_pink = some (0, 1) ∧
    (processFrame true (processFrame true (processFrame true initState fD) fE) fE).prev_pink
      = some (0, 1) ∧
    ¬ (0 ≤ dot (canon (pairVec (0, 0) (0, 1)))
        ((processFrame true (processFrame true initState fD) fE).prev_pink.getD (0, 0))) ∧
    continuity (processFrame true (processFrame true initState fD) fE).prev_pink
        (canon (pairVec (0, 0) (0, 1)))
      ≠ canon (pairVec (0, 0) (0, 1)) := by
  decide

/-- C7 (amended): feeding the same frame twice in a row yields the same
accepted direction vectors on both frames, for every starting state and
every frame: the flip decision of the second frame reproduces the outcome
of the first, though the dot product on the second frame may be negative, in
which case the same flip simply recurs. -/
theorem C7_idempotent (csvOn : Bool) (s : LoopState) (f : Frame) :
    (processFrame csvOn (processFrame csvOn s f) f).prev_pink =
      (processFrame csvOn s f).prev_pink ∧
    (processFrame csvOn (processFrame csvOn s f) f).prev_green =
      (processFrame csvOn s f).prev_green := by
  by_cases h : (find_centroids f.pinkContours).length = 2 ∧
      (find_centroids f.greenContours).length = 2
  · obtain ⟨a, b, hab⟩ := List.length_eq_two.mp h.1
    obtain ⟨c, d, hcd⟩ := List.length_eq_two.mp h.2
    constructor
    · rw [prev_pink_after csvOn (processFrame csvOn s f) f, if_pos h,
        prev_pink_after csvOn s f, if_pos h, hab]
      simp only [frameVec]
      rw [continuity_repeat]
    · rw [prev_green_after csvOn (processFrame csvOn s f) f, if_pos h,
        prev_green_after csvOn s f, if_pos h, hcd]
      simp only [frameVec]
      rw [continuity_repeat]
  · constructor
    · rw [prev_pink_after csvOn (processFrame csvOn s f) f, if_neg h,
        prev_pink_after csvOn s f, if_neg h]
    · rw [prev_green_after csvOn (processFrame csvOn s f) f, if_neg h,
        prev_green_after csvOn s f, if_neg h]

lemma rows_length_step (s : LoopState) (f : Frame)
    (h : s.rows.length = s.frames_with_angle) :
    (processFrame true s f).rows.length = (processFrame true s f).frames_with_angle := by
  rcases processFrame_rows_count true s f with ⟨h1, h2⟩ | ⟨a, h1, h2⟩
  · rw [h1, h2, h]
  · rw [h1, h2]
    simp [h]

lemma rows_length_foldl (l : List Frame) (s : LoopState)
    (h : s.rows.length = s.frames_with_angle) :
    (l.foldl (processFrame true) s).rows.length =
      (l.foldl (processFrame true) s).frames_with_angle := by
  induction l generalizing s with
  | nil => simpa using h
  | cons f fs ih => exact ih (processFrame true s f) (rows_length_step s f h)

/-- C4: for every run with a CSV path given, the frames_with_angle count of
the returned summary equals the number of data rows actually written to the
angle log (the header row excluded): the two are incremented together in
the same branch of the frame loop. -/
theorem C4_count_matches_log (framesIn : List Frame) :
    (logRows (process_video framesIn true)).length =
      (process_video framesIn true).frames_with_angle := by
  simp only [process_video, logRows, if_true, Option.getD_some]
  exact rows_length_foldl framesIn initState rfl

/-- The invariant maintained by the frame loop over the written rows: frame
indices are strictly increasing, every index lies between 1 and the current
frame counter, and the angle count never exceeds the frame counter. -/
def rowsOK (s : LoopState) : Prop :=
  s.rows.Pairwise (fun a b => a.1 < b.1) ∧
  (s.rows.all fun r => decide (1 ≤ r.1) && decide (r.1 ≤ s.frame_idx)) = true ∧
  s.frames_with_angle ≤ s.frame_idx

lemma rowsOK_step (csvOn : Bool) (s : LoopState) (f : Frame) (h : rowsOK s) :
    rowsOK (processFrame csvOn s f) := by
  obtain ⟨hpw, hall, hcnt⟩ := h
  rw [List.all_eq_true] at hall
  have hidx := processFrame_frame_idx csvOn s f
  have hbound : ∀ r ∈ s.rows, 1 ≤ r.1 ∧ r.1 ≤ s.frame_idx := by
    intro r hr
    have := hall r hr
    simp only [Bool.and_eq_true, decide_eq_true_eq] at this
    exact this
  rcases processFrame_rows_count csvOn s f with ⟨h1, h2⟩ | ⟨a, h1, h2⟩
  · refine ⟨?_, ?_, ?_⟩
    · rw [h1]; exact hpw
    · rw [h1, hidx, List.all_eq_true]
      intro r hr
      have := hbound r hr
      simp only [Bool.and_eq_true, decide_eq_true_eq]
      omega
    · rw [h2, hidx]; omega
  · by_cases hcsv : csvOn = true
    · subst hcsv
      rw [if_pos rfl] at h1
      refine ⟨?_, ?_, ?_⟩
      · rw [h1, List.pairwise_append]
        refine ⟨hpw, List.pairwise_singleton _ _, ?_⟩
        intro x hx y hy
        rw [List.mem_singleton] at hy
        subst hy
        have := hbound x hx
        simp only
        omega
      · rw [h1, hidx, List.all_eq_true]
        intro r hr
        rw [List.mem_append, List.mem_singleton] at hr
        simp only [Bool.and_eq_true, decide_eq_true_eq]
        rcases hr with hr | hr
        · have := hbound r hr
          omega
        · subst hr
          simp only
          omega
      · rw [h2, hidx]; omega
    · rw [if_neg hcsv] at h1
      refine ⟨?_, ?_, ?_⟩
      · rw [h1]; exact hpw
      · rw [h1, hidx, List.all_eq_true]
        intro r hr
        have := hbound r hr
        simp only [Bool.and_eq_true, decide_eq_true_eq]
        omega
      · rw [h2, hidx]; omega

lemma rowsOK_foldl (l : List Frame) (s : LoopState) (h : rowsOK s) :
    rowsOK (l.foldl (processFrame true) s) := by
  induction l generalizing s with
  | nil => simpa using h
  | cons f fs ih => exact ih _ (rowsOK_step true s f h)

/-- C9: for every run, the frame indices of the data rows written to the
angle log are strictly increasing, each lies between 1 and the total number
of frames read, and the frames_with_angle count of the returned summary
never exceeds the total number of frames read. -/
theorem C9_log_indices (framesIn : List Frame) :
    (logRows (process_video framesIn true)).Pairwise (fun a b => a.1 < b.1) ∧
    ((logRows (process_video framesIn true)).all fun r =>
      decide (1 ≤ r.1) && decide (r.1 ≤ (process_video framesIn true).frames)) = true ∧
    (process_video framesIn true).frames_with_angle ≤
      (process_video framesIn true).frames := by
  have hinit : rowsOK initState := ⟨List.Pairwise.nil, rfl, Nat.le_refl 0⟩
  have hinv := rowsOK_foldl framesIn initState hinit
  obtain ⟨h1, h2, h3⟩ := hinv
  exact ⟨h1, h2, h3⟩

lemma obs_step (cv cw : Bool) (s t : LoopState) (f : Frame)
    (h1 : s.prev_pink = t.prev_pink) (h2 : s.prev_green = t.prev_green)
    (h3 : s.frame_idx = t.frame_idx) (h4 : s.frames_with_angle = t.frames_with_angle)
    (h5 : s.video = t.video) :
    (processFrame cv s f).prev_pink = (processFrame cw t f).prev_pink ∧
    (processFrame cv s f).prev_green = (processFrame cw t f).prev_green ∧
    (processFrame cv s f).frame_idx = (processFrame cw t f).frame_idx ∧
    (processFrame cv s f).frames_with_angle = (processFrame cw t f).frames_with_angle ∧
    (processFrame cv s f).video = (processFrame cw t f).video := by
  by_cases h : (find_centroids f.pinkContours).length = 2 ∧
      (find_centroids f.greenContours).length = 2
  · obtain ⟨a, b, hab⟩ := List.length_eq_two.mp h.1
    obtain ⟨c, d, hcd⟩ := List.length_eq_two.mp h.2
    rw [processFrame_pair cv s f a b c d hab hcd,
      processFrame_pair cw t f a b c d hab hcd]
    refine ⟨?_, ?_, ?_, ?_, ?_⟩ <;> simp [stepPair, h1, h2, h3, h4, h5]
  · rw [processFrame_skip cv s f h, processFrame_skip cw t f h]
    refine ⟨?_, ?_, ?_, ?_, ?_⟩ <;> simp [stepSkip, h1, h2, h3, h4, h5]

lemma obs_foldl (l : List Frame) (cv cw : Bool) (s t : LoopState)
    (h1 : s.prev_pink = t.prev_pink) (h2 : s.prev_green = t.prev_green)
    (h3 : s.frame_idx = t.frame_idx) (h4 : s.frames_with_angle = t.frames_with_angle)
    (h5 : s.video = t.video) :
    (l.foldl (processFrame cv) s).prev_pink = (l.foldl (processFrame cw) t).prev_pink ∧
    (l.foldl (processFrame cv) s).prev_green = (l.foldl (processFrame cw) t).prev_green ∧
    (l.foldl (processFrame cv) s).frame_idx = (l.foldl (processFrame cw) t).frame_idx ∧
    (l.foldl (processFrame cv) s).frames_with_angle =
      (l.foldl (processFrame cw) t).frames_with_angle ∧
    (l.foldl (processFrame cv) s).video = (l.foldl (processFrame cw) t).video := by
  induction l generalizing s t with
  | nil => exact ⟨h1, h2, h3, h4, h5⟩
  | cons f fs ih =>
    obtain ⟨g1, g2, g3, g4, g5⟩ := obs_step cv cw s t f h1 h2 h3 h4 h5
    exact ih _ _ g1 g2 g3 g4 g5

/-- C10: omitting the CSV path does not influence the rest of the run: for
every input, running without a CSV path yields the same total frame count,
the same frames_with_angle count, and the same annotated video content as
running with one, and the returned summary's output_csv field is none: no
log is produced. -/
theorem C10_csv_noninterference (framesIn : List Frame) :
    (process_video framesIn false).frames = (process_video framesIn true).frames ∧
    (process_video framesIn false).frames_with_angle =
      (process_video framesIn true).frames_with_angle ∧
    (process_video framesIn false).video = (process_video framesIn true).video ∧
    (process_video framesIn false).output_csv = none := by
  obtain ⟨g1, g2, g3, g4, g5⟩ :=
    obs_foldl framesIn false true initState initState rfl rfl rfl rfl rfl
  exact ⟨g3, g4, g5, rfl⟩

/-- C8: in blob extraction, a contour whose area is exactly the minimum-area
threshold 50 is retained and contributes its centroid (its zeroth moment is
necessarily non-zero), while a contour whose area is 49, one below the
threshold, is discarded. -/
theorem C8_area_boundary (c : Contour) (rest : List Contour) :
    (contourArea c = 50 → find_centroids (c :: rest) =
      (Int.tdiv c.m10 c.m00, Int.tdiv c.m01 c.m00) :: find_centroids rest) ∧
    (contourArea c = 49 → find_centroids (c :: rest) = find_centroids rest) := by
  constructor
  · intro h
    have hm : ¬ c.m00 = 0 := by
      intro h0
      rw [contourArea, h0] at h
      norm_num at h
    have hlt : ¬ contourArea c < 50 := by rw [h]; omega
    simp only [find_centroids]
    rw [if_neg hlt, if_neg hm]
  · intro h
    have hlt : contourArea c < 50 := by rw [h]; omega
    simp only [find_centroids]
    rw [if_pos hlt]

/-- C8 witness: the statement at the concrete contours c50 (area exactly 50,
retained with centroid (2, 2)) and c49 (area 49, discarded). -/
theorem C8_witness :
    (contourArea c50 = 50 ∧
      find_centroids [c50] =
        (Int.tdiv c50.m10 c50.m00, Int.tdiv c50.m01 c50.m00) :: find_centroids []) ∧
    (contourArea c49 = 49 ∧ find_centroids [c49] = find_centroids []) :=
  ⟨⟨by decide, (C8_area_boundary c50 []).1 (by decide)⟩,
   ⟨by decide, (C8_area_boundary c49 []).2 (by decide)⟩⟩

end Tracker
